import Mathlib

/-!
# Verification of the `hV_Screen` e-paper driver (`hV_Screen.py`)

A shallow embedding of the monochrome e-paper screen driver: the packed 1-bit
framebuffer, the orientation mapper, the raster primitives (`point`, `line`,
`rectangle`), the text blitter (`gText`), the font/orientation setters, and the
panel flush protocol modelled as a trace of SPI register writes.

Modelling conventions:
* Python integers are arbitrary-precision; screen coordinates are modelled as
  `Nat` (the driver's logical pixel coordinates), and fields that the source
  can drive negative (`_fontSize`, `_orientation`, `_fontSpaceX`) as `Int`.
  Python `%` on a positive modulus matches `Int.emod` and `Nat.mod`; `>> 3`
  on a nonnegative value matches `Nat.shiftRight`.
* `bytearray` planes become `List Nat`; an element write `buf[z] = b` becomes
  `List.set` and a read `buf[z]` becomes `List.getD _ _ 0` (all claim-relevant
  accesses are in range, where the two semantics agree with Python).
* Fallible code returns `Option`: `readPixel` raises `UnboundLocalError` on
  its in-bounds path (the source line 349 `value(0)` calls the still-unassigned
  local `value`), modelled as `none`.
* The SPI bus is modelled as a trace of register writes (`SpiEvent`); the
  timing delays and busy-wait polling are real-time behaviour outside the
  state model.
-/

/-- `Colour.BLACK` from the source: RGB565 constant `0b0000000000000000`. -/
def Colour.BLACK : Nat := 0

/-- `Colour.WHITE` from the source: RGB565 constant `0b1111111111111111`. -/
def Colour.WHITE : Nat := 0b1111111111111111

/-- `Colour.GREY` from the source: RGB565 constant `0b0111101111101111`. -/
def Colour.GREY : Nat := 0b0111101111101111

/-- The font descriptor fields set by `selectFont`
(`kind`, `height`, `maxWidth`, `first`, `number`). -/
structure FontDescriptor where
  kind : Nat
  height : Nat
  maxWidth : Nat
  first : Nat
  number : Nat
deriving DecidableEq, Repr

/-- Modelled from the spec: the glyph bitmap tables `Font._Terminal6x8e`,
`Font._Terminal8x12e` and `Font._Terminal12x16e` live in `hV_Fonts.py`, the
external font provider, which is not under `src/`; per the spec they are an
opaque "lookup by glyph index and row index", so they are abstract functions
here (glyph index is `Int` because the source computes `ord(ch) - ord(" ")`,
which Python lets go negative). -/
structure FontTables where
  t6 : Int → Nat → Nat
  t8 : Int → Nat → Nat
  t12 : Int → Nat → Nat

/-- The mutable state of a `Screen` object: the parameter fields declared at
class level in the source plus the two framebuffer planes created in
`__init__`. The pins and the SPI object are bus-level state outside the model. -/
structure Screen where
  screenSizeV : Nat      -- `_screenSizeV`, set to `screenW` in `__init__`
  screenSizeH : Nat      -- `_screenSizeH`, set to `screenH` in `__init__`
  fontSize : Int         -- `_fontSize`
  fontSolid : Bool       -- `_fontSolid`
  penSolid : Bool        -- `_penSolid`
  invert : Bool          -- `_invert`
  fontSpaceX : Int       -- `_fontSpaceX`
  fontSpaceY : Int       -- `_fontSpaceY`
  orientation : Int      -- `_orientation`
  font : FontDescriptor  -- `_font`
  newImage : List Nat    -- `_newImage` ("current" plane)
  oldImage : List Nat    -- `_oldImage` ("previous" plane)
deriving DecidableEq, Repr

/-- `self._bufferSizeH = (self._screenSizeH >> 3)`: assigned once in
`__init__` from `_screenSizeH` and never reassigned, so modelled as a
derived quantity. -/
def bufferSizeH (s : Screen) : Nat := s.screenSizeH >>> 3

/-- `self._bufferSizeV = self._screenSizeV`: assigned once in `__init__`. -/
def bufferSizeV (s : Screen) : Nat := s.screenSizeV

/-- `self._pageColourSize = self._bufferSizeV * self._bufferSizeH`. -/
def pageColourSize (s : Screen) : Nat := bufferSizeV s * bufferSizeH s

/-- `Screen.__init__(spi, cs, reset, dc, busy, screenW, screenH)`: class-level
parameter defaults plus the two zeroed `bytearray` planes.  The class default
`_font = Font.font_s` comes from the external `hV_Fonts`; its contents are
irrelevant here (`begin()` immediately runs `selectFont(0)`), modelled as a
zeroed descriptor. -/
def Screen.init (screenW screenH : Nat) : Screen :=
  { screenSizeV := screenW
    screenSizeH := screenH
    fontSize := 0
    fontSolid := false
    penSolid := false
    invert := false
    fontSpaceX := 1
    fontSpaceY := 1
    orientation := 0
    font := ⟨0, 0, 0, 0, 0⟩
    newImage := List.replicate (screenW * (screenH >>> 3)) 0
    oldImage := List.replicate (screenW * (screenH >>> 3)) 0 }

/-- `__bitSet(value, bit_index) = value | (1 << bit_index)`. -/
def bitSet (value bit_index : Nat) : Nat := value ||| (1 <<< bit_index)

/-- `__bitClear(value, bit_index) = value & ~(1 << bit_index)`.  On
nonnegative arbitrary-precision integers Python's `v & ~m` keeps exactly the
bits of `v` outside `m`, which equals `v ^^^ (v &&& m)`. -/
def bitClear (value bit_index : Nat) : Nat :=
  value ^^^ (value &&& (1 <<< bit_index))

/-- `__bitRead(value, bit_index) = value & (1 << bit_index)`. -/
def bitRead (value bit_index : Nat) : Nat := value &&& (1 <<< bit_index)

/-- `__orientCoordinates(x, y)`: returns `(flag, x, y)` with
`flag = false` on success, `true` out of bounds.  Each branch is the
straight-line compilation of the source's sequential assignments and swaps. -/
def orientCoordinates (s : Screen) (x y : Nat) : Bool × Nat × Nat :=
  if s.orientation = 3 then
    -- x = V - 1 - x  (no swap)
    if x < s.screenSizeV ∧ y < s.screenSizeH then
      (false, s.screenSizeV - 1 - x, y)
    else (true, x, y)
  else if s.orientation = 2 then
    -- x = H - 1 - x; y = V - 1 - y; then (y, x) = (x, y)
    if x < s.screenSizeH ∧ y < s.screenSizeV then
      (false, s.screenSizeV - 1 - y, s.screenSizeH - 1 - x)
    else (true, x, y)
  else if s.orientation = 1 then
    -- y = H - 1 - y  (no swap)
    if x < s.screenSizeV ∧ y < s.screenSizeH then
      (false, x, s.screenSizeH - 1 - y)
    else (true, x, y)
  else
    -- (y, x) = (x, y)
    if x < s.screenSizeH ∧ y < s.screenSizeV then
      (false, y, x)
    else (true, x, y)

/-- `screenSizeX()`. -/
def screenSizeX (s : Screen) : Nat :=
  if s.orientation = 1 ∨ s.orientation = 3 then s.screenSizeV
  else if s.orientation = 0 ∨ s.orientation = 2 then s.screenSizeH
  else 0

/-- `screenSizeY()`. -/
def screenSizeY (s : Screen) : Nat :=
  if s.orientation = 1 ∨ s.orientation = 3 then s.screenSizeH
  else if s.orientation = 0 ∨ s.orientation = 2 then s.screenSizeV
  else 0

/-- `__getZT(x1, y1) = (x1 * _bufferSizeH + (y1 >> 3), 7 - (y1 % 8))`. -/
def getZT (s : Screen) (x1 y1 : Nat) : Nat × Nat :=
  (x1 * bufferSizeH s + (y1 >>> 3), 7 - y1 % 8)

/-- `point(x1, y1, colour)`: orient, resolve GREY by parity of the mapped
coordinates, then set (physical black) or clear (physical white) the bit,
with the polarity XOR-ed by `_invert`.  Out of bounds it returns without
touching any state. -/
def point (s : Screen) (x1 y1 colour : Nat) : Screen :=
  let r := orientCoordinates s x1 y1
  if r.1 then s
  else
    let x1' := r.2.1
    let y1' := r.2.2
    let z1 := (getZT s x1' y1').1
    let t1 := (getZT s x1' y1').2
    let flagOdd := (x1' + y1') % 2 = 0
    let colour' :=
      if colour = Colour.GREY then
        if flagOdd then Colour.BLACK else Colour.WHITE
      else colour
    if Bool.xor (colour' == Colour.WHITE) s.invert then
      -- physical black 00
      { s with newImage := s.newImage.set z1 (bitClear (s.newImage.getD z1 0) t1) }
    else if Bool.xor (colour' == Colour.BLACK) s.invert then
      -- physical white 10
      { s with newImage := s.newImage.set z1 (bitSet (s.newImage.getD z1 0) t1) }
    else s

/-- `setOrientation(orientation)`: the 6/7 pseudo-value handling followed by
the source's unconditional `self._orientation = orientation % 4`
(Python `%` on a positive modulus is `Int.emod`). -/
def setOrientation (s : Screen) (orientation : Int) : Screen :=
  let s1 :=
    if orientation = 6 then
      let t : Screen := { s with orientation := 0 }
      if screenSizeX t > screenSizeY t then { t with orientation := 1 } else t
    else if orientation = 7 then
      let t : Screen := { s with orientation := 0 }
      if screenSizeX t < screenSizeY t then { t with orientation := 1 } else t
    else s
  { s1 with orientation := orientation % 4 }

/-- `getOrientation()`. -/
def getOrientation (s : Screen) : Int := s.orientation

/-- `readPixel(x1, y1)`: out of bounds it returns `0`; in bounds the source
executes `value(0)` (line 349) — a call to the local variable `value` that is
only assigned four lines later — so Python raises `UnboundLocalError` before
any buffer access, modelled as `none`. -/
def readPixel (s : Screen) (x1 y1 : Nat) : Option Nat :=
  let r := orientCoordinates s x1 y1
  if r.1 then some 0
  else none

/-- The Bresenham iteration of `line` (the final `while wx1 <= wx2` loop).
The loop runs exactly `wx2 + 1 - wx1` times because `wx1` increases by one
each pass, so that count is the structural fuel.  `err` starts at `dx / 2`
(true division, a Python float); all its values are integer multiples of
one half with magnitude below `2^52`, hence exact in binary floating point
and modelled exactly by `ℚ`.  `wy1` is a `Nat`; the subtraction in the
`ystep = -1` case can truncate only in the loop's final error update, whose
result is never read (the loop exits and `wy1` is dead). -/
def lineLoop (colour dx dy : Nat) (ystep : Int) (flag : Bool) :
    Nat → Nat → Nat → ℚ → Screen → Screen
  | 0, _, _, _, s => s
  | n + 1, wx1, wy1, err, s =>
    let s' := if flag then point s wy1 wx1 colour else point s wx1 wy1 colour
    let err' := err - dy
    let wy1' := if err' < 0 then (if ystep = 1 then wy1 + 1 else wy1 - 1) else wy1
    let err'' := if err' < 0 then err' + dx else err'
    lineLoop colour dx dy ystep flag n (wx1 + 1) wy1' err'' s'

/-- `line(x1, y1, x2, y2, colour)`: equal endpoints delegate to `point`;
pure-vertical and pure-horizontal runs iterate directly (`range(a, b+1)`);
the general case is integer Bresenham with the steep-case axis swap. -/
def line (s : Screen) (x1 y1 x2 y2 colour : Nat) : Screen :=
  if x1 = x2 ∧ y1 = y2 then
    point s x1 y1 colour
  else if x1 = x2 then
    let a := if y1 > y2 then y2 else y1
    let b := if y1 > y2 then y1 else y2
    (List.range' a (b + 1 - a)).foldl (fun t y => point t x1 y colour) s
  else if y1 = y2 then
    let a := if x1 > x2 then x2 else x1
    let b := if x1 > x2 then x1 else x2
    (List.range' a (b + 1 - a)).foldl (fun t x => point t x y1 colour) s
  else
    let flag := ((y2 : Int) - y1).natAbs > ((x2 : Int) - x1).natAbs
    let wx1 := if flag then y1 else x1
    let wy1 := if flag then x1 else y1
    let wx2 := if flag then y2 else x2
    let wy2 := if flag then x2 else y2
    let vx1 := if wx1 > wx2 then wx2 else wx1
    let vy1 := if wx1 > wx2 then wy2 else wy1
    let vx2 := if wx1 > wx2 then wx1 else wx2
    let vy2 := if wx1 > wx2 then wy1 else wy2
    let dx := vx2 - vx1
    let dy := ((vy2 : Int) - vy1).natAbs
    let err : ℚ := (dx : ℚ) / 2
    let ystep : Int := if vy1 < vy2 then 1 else -1
    lineLoop colour dx dy ystep flag (vx2 + 1 - vx1) vx1 vy1 err s

/-- `rectangle(x1, y1, x2, y2, colour)`: outline pen draws the four border
lines; solid pen normalizes the ranges and plots every coordinate of the
inclusive 2D range. -/
def rectangle (s : Screen) (x1 y1 x2 y2 colour : Nat) : Screen :=
  if s.penSolid = false then
    let s1 := line s x1 y1 x1 y2 colour
    let s2 := line s1 x1 y1 x2 y1 colour
    let s3 := line s2 x1 y2 x2 y2 colour
    line s3 x2 y1 x2 y2 colour
  else
    let xa := if x1 > x2 then x2 else x1
    let xb := if x1 > x2 then x1 else x2
    let ya := if y1 > y2 then y2 else y1
    let yb := if y1 > y2 then y1 else y2
    (List.range' xa (xb + 1 - xa)).foldl
      (fun t x => (List.range' ya (yb + 1 - ya)).foldl
        (fun t' y => point t' x y colour) t) s

/-- Modelled from the spec: `Font.MAX_FONT_SIZE` is defined in `hV_Fonts.py`
(the external font provider), which is not under `src/`; the screen configures
font selectors 0–3, so it is modelled as `4`. -/
def MAX_FONT_SIZE : Int := 4

/-- `selectFont(font)`: store `font` if `font < MAX_FONT_SIZE`, else
`MAX_FONT_SIZE - 1`; then configure the font descriptor for sizes 0–3. -/
def selectFont (s : Screen) (font : Int) : Screen :=
  let s1 : Screen :=
    if font < MAX_FONT_SIZE then { s with fontSize := font }
    else { s with fontSize := MAX_FONT_SIZE - 1 }
  if s1.fontSize = 0 then { s1 with font := ⟨0x40, 8, 6, 32, 224⟩ }
  else if s1.fontSize = 1 then { s1 with font := ⟨0x40, 12, 8, 32, 224⟩ }
  else if s1.fontSize = 2 then { s1 with font := ⟨0x40, 16, 12, 32, 224⟩ }
  else if s1.fontSize = 3 then { s1 with font := ⟨0x40, 24, 16, 32, 224⟩ }
  else s1

/-- `getFont()`. -/
def getFont (s : Screen) : Int := s.fontSize

/-- `characterSizeX(character) = _font.maxWidth + _fontSpaceX`
(the `character` argument is unused in the source). -/
def characterSizeX (s : Screen) (character : Nat) : Int :=
  (s.font.maxWidth : Int) + s.fontSpaceX

/-- `setFontSpaceX(number)`. -/
def setFontSpaceX (s : Screen) (number : Int) : Screen :=
  { s with fontSpaceX := number }

/-- `setFontSpaceY(number)`: the source line is `self_fontSpaceY = number` —
the dot is missing, so Python binds a function-local variable
`self_fontSpaceY` and discards it; the screen state is untouched. -/
def setFontSpaceY (s : Screen) (number : Int) : Screen :=
  let _self_fontSpaceY := number
  s

/-- `__getCharacter(character, index)`: dispatch on `_fontSize` to the
external glyph tables (size 3 is commented out in the source, so it falls
through to `0`). -/
def getCharacter (ft : FontTables) (s : Screen) (character : Int) (index : Nat) : Nat :=
  if s.fontSize = 0 then ft.t6 character index
  else if s.fontSize = 1 then ft.t8 character index
  else if s.fontSize = 2 then ft.t12 character index
  else 0

/-- `gText(x0, y0, text, textColour, backColour)`: monospaced blit, one glyph
per character, column stride hardcoded to the font's `maxWidth` (6, 8 or 12).
For the two-byte fonts the second byte's background fill is restricted to
`j < 4` for size 1 and unrestricted for size 2, exactly as in the source. -/
def gText (ft : FontTables) (s : Screen) (x0 y0 : Nat) (text : List Char)
    (textColour backColour : Nat) : Screen :=
  if s.fontSize = 0 then
    (List.range text.length).foldl (fun t k =>
      let c : Int := ((text.getD k ' ').toNat : Int) - 32
      (List.range 6).foldl (fun t i =>
        let ln := getCharacter ft t c i
        (List.range 8).foldl (fun t j =>
          if 0 < bitRead ln j then point t (x0 + 6 * k + i) (y0 + j) textColour
          else if t.fontSolid then point t (x0 + 6 * k + i) (y0 + j) backColour
          else t) t) t) s
  else if s.fontSize = 1 then
    (List.range text.length).foldl (fun t k =>
      let c : Int := ((text.getD k ' ').toNat : Int) - 32
      (List.range 8).foldl (fun t i =>
        let ln := getCharacter ft t c (2 * i)
        let ln1 := getCharacter ft t c (2 * i + 1)
        (List.range 8).foldl (fun t j =>
          let t1 :=
            if bitRead ln j ≠ 0 then point t (x0 + 8 * k + i) (y0 + j) textColour
            else if t.fontSolid then point t (x0 + 8 * k + i) (y0 + j) backColour
            else t
          if bitRead ln1 j ≠ 0 then point t1 (x0 + 8 * k + i) (y0 + 8 + j) textColour
          else if t1.fontSolid ∧ j < 4 then point t1 (x0 + 8 * k + i) (y0 + 8 + j) backColour
          else t1) t) t) s
  else if s.fontSize = 2 then
    (List.range text.length).foldl (fun t k =>
      let c : Int := ((text.getD k ' ').toNat : Int) - 32
      (List.range 12).foldl (fun t i =>
        let ln := getCharacter ft t c (2 * i)
        let ln1 := getCharacter ft t c (2 * i + 1)
        (List.range 8).foldl (fun t j =>
          let t1 :=
            if bitRead ln j ≠ 0 then point t (x0 + 12 * k + i) (y0 + j) textColour
            else if t.fontSolid then point t (x0 + 12 * k + i) (y0 + j) backColour
            else t
          if bitRead ln1 j ≠ 0 then point t1 (x0 + 12 * k + i) (y0 + 8 + j) textColour
          else if t1.fontSolid then point t1 (x0 + 12 * k + i) (y0 + 8 + j) backColour
          else t1) t) t) s
  else s

/-! ## The panel protocol as a trace of SPI register writes -/

/-- One bus-visible transfer: `__sendCommand8(c)` or
`__sendIndexData(index, data, size)`. -/
inductive SpiEvent where
  | command8 (c : Nat)
  | indexData (index : Nat) (data : List Nat)
deriving DecidableEq, Repr

/-- `__sendCommand8(command)`: appends one command event to the trace. -/
def sendCommand8 (tr : List SpiEvent) (command : Nat) : List SpiEvent :=
  tr ++ [SpiEvent.command8 command]

/-- `__sendIndexData(index, data, size)`: appends one register write. -/
def sendIndexData (tr : List SpiEvent) (index : Nat) (data : List Nat) : List SpiEvent :=
  tr ++ [SpiEvent.indexData index data]

/-- `__COG_initial()`: soft reset, temperature programming, PSR. -/
def COG_initial (s : Screen) (tr : List SpiEvent) : Screen × List SpiEvent :=
  let tr := sendIndexData tr 0x00 [0x00]
  let tr := sendIndexData tr 0xe5 [0x19 ||| 0x40]
  let tr := sendIndexData tr 0xe0 [0x02]
  let tr := sendIndexData tr 0x00 [0xcf ||| 0x10, 0x8d ||| 0x02]
  (s, tr)

/-- `__COG_sendImageDataFast()`: previous plane to `0x10`, current plane to
`0x13`, then `self._oldImage[:] = self._newImage`. -/
def COG_sendImageDataFast (s : Screen) (tr : List SpiEvent) : Screen × List SpiEvent :=
  let tr := sendIndexData tr 0x10 s.oldImage
  let tr := sendIndexData tr 0x13 s.newImage
  ({ s with oldImage := s.newImage }, tr)

/-- `__COG_update()`: power on `0x04`, refresh `0x12` (busy-waits between). -/
def COG_update (s : Screen) (tr : List SpiEvent) : Screen × List SpiEvent :=
  let tr := sendCommand8 tr 0x04
  let tr := sendCommand8 tr 0x12
  (s, tr)

/-- `__COG_powerOff()`: `0x02`. -/
def COG_powerOff (s : Screen) (tr : List SpiEvent) : Screen × List SpiEvent :=
  let tr := sendCommand8 tr 0x02
  (s, tr)

/-- `flush()`: configure, transfer image, refresh, power off. -/
def flush (s : Screen) : Screen × List SpiEvent :=
  let (s1, tr1) := COG_initial s []
  let (s2, tr2) := COG_sendImageDataFast s1 tr1
  let (s3, tr3) := COG_update s2 tr2
  COG_powerOff s3 tr3

/-- Following the spec's words (§4.2, claim C4): the four cases of
`mapCoordinates(x, y, orientation)`, with `H_short = _screenSizeH` and
`V_tall = _screenSizeV`; this is the specification-side definition to be
compared with `orientCoordinates`. -/
def mapCoordinatesSpec (s : Screen) (x y : Nat) : Bool × Nat × Nat :=
  if s.orientation = 0 then
    if x < s.screenSizeH ∧ y < s.screenSizeV then (false, y, x) else (true, x, y)
  else if s.orientation = 1 then
    if x < s.screenSizeV ∧ y < s.screenSizeH then (false, x, s.screenSizeH - 1 - y)
    else (true, x, y)
  else if s.orientation = 2 then
    if x < s.screenSizeH ∧ y < s.screenSizeV then
      (false, s.screenSizeV - 1 - y, s.screenSizeH - 1 - x)
    else (true, x, y)
  else if s.orientation = 3 then
    if x < s.screenSizeV ∧ y < s.screenSizeH then (false, s.screenSizeV - 1 - x, y)
    else (true, x, y)
  else (true, x, y)

/-! ## Derived pixel-level semantics and helper lemmas -/

/-- The logical pixel value at `(x, y)`: the framebuffer bit addressed through
`__orientCoordinates` and `__getZT` (meaningful for in-bounds coordinates). -/
def pixelAt (s : Screen) (x y : Nat) : Bool :=
  let r := orientCoordinates s x y
  let zt := getZT s r.2.1 r.2.2
  (s.newImage.getD zt.1 0).testBit zt.2

/-- The colour after `point`'s GREY-by-parity resolution at `(x, y)`. -/
def pointColour (s : Screen) (x y colour : Nat) : Nat :=
  if colour = Colour.GREY then
    if ((orientCoordinates s x y).2.1 + (orientCoordinates s x y).2.2) % 2 = 0
    then Colour.BLACK else Colour.WHITE
  else colour

/-- The bit that `point s x y colour` leaves at the pixel of `(x, y)` itself,
as a function of that pixel's previous value (`prev` survives when the colour
matches neither polarity branch, or when the byte index falls outside the
plane and the write is dropped). -/
def pointBit (s : Screen) (x y colour : Nat) (prev : Bool) : Bool :=
  if (getZT s (orientCoordinates s x y).2.1 (orientCoordinates s x y).2.2).1
      < s.newImage.length then
    if Bool.xor ((pointColour s x y colour) == Colour.WHITE) s.invert then false
    else if Bool.xor ((pointColour s x y colour) == Colour.BLACK) s.invert then true
    else prev
  else prev

/-- The screen fields that the raster primitives read but never write. -/
def sameConfig (s s' : Screen) : Prop :=
  s'.orientation = s.orientation ∧ s'.screenSizeV = s.screenSizeV ∧
  s'.screenSizeH = s.screenSizeH ∧ s'.invert = s.invert ∧
  s'.newImage.length = s.newImage.length

theorem sameConfig_refl (s : Screen) : sameConfig s s :=
  ⟨rfl, rfl, rfl, rfl, rfl⟩

theorem sameConfig_trans {s t u : Screen} (h1 : sameConfig s t)
    (h2 : sameConfig t u) : sameConfig s u := by
  obtain ⟨a1, b1, c1, d1, e1⟩ := h1
  obtain ⟨a2, b2, c2, d2, e2⟩ := h2
  exact ⟨a2.trans a1, b2.trans b1, c2.trans c1, d2.trans d1, e2.trans e1⟩

theorem point_sameConfig (s : Screen) (x y c : Nat) :
    sameConfig s (point s x y c) := by
  simp only [point]
  split_ifs <;> exact ⟨rfl, rfl, rfl, rfl, by simp⟩

theorem foldl_sameConfig {α : Type} (f : Screen → α → Screen)
    (hf : ∀ t a, sameConfig t (f t a)) :
    ∀ (l : List α) (s : Screen), sameConfig s (l.foldl f s) := by
  intro l
  induction l with
  | nil => intro s; exact sameConfig_refl s
  | cons a l ih => intro s; exact sameConfig_trans (hf s a) (ih (f s a))

theorem orientCoordinates_congr {s s' : Screen} (h : sameConfig s s')
    (x y : Nat) : orientCoordinates s' x y = orientCoordinates s x y := by
  obtain ⟨ho, hv, hh, _, _⟩ := h
  unfold orientCoordinates
  rw [ho, hv, hh]

theorem getZT_congr {s s' : Screen} (h : sameConfig s s') (x y : Nat) :
    getZT s' x y = getZT s x y := by
  obtain ⟨_, _, hh, _, _⟩ := h
  unfold getZT bufferSizeH
  rw [hh]

theorem pointColour_congr {s s' : Screen} (h : sameConfig s s')
    (x y c : Nat) : pointColour s' x y c = pointColour s x y c := by
  simp only [pointColour, orientCoordinates_congr h]

theorem pointBit_congr {s s' : Screen} (h : sameConfig s s')
    (x y c : Nat) (prev : Bool) : pointBit s' x y c prev = pointBit s x y c prev := by
  simp only [pointBit, orientCoordinates_congr h, getZT_congr h,
    pointColour_congr h, h.2.2.2.1, h.2.2.2.2]

theorem pointBit_idem (s : Screen) (x y c : Nat) (prev : Bool) :
    pointBit s x y c (pointBit s x y c prev) = pointBit s x y c prev := by
  simp only [pointBit]
  split_ifs <;> rfl

/-! Bit-twiddling facts. -/

theorem testBit_bitSet (v i j : Nat) :
    (bitSet v i).testBit j = (v.testBit j || decide (i = j)) := by
  unfold bitSet
  rw [Nat.testBit_or, Nat.one_shiftLeft, Nat.testBit_two_pow]

theorem testBit_bitClear (v i j : Nat) :
    (bitClear v i).testBit j = (v.testBit j && !decide (i = j)) := by
  unfold bitClear
  rw [Nat.testBit_xor, Nat.testBit_and, Nat.one_shiftLeft, Nat.testBit_two_pow]
  by_cases h : i = j <;> simp [h]

/-! Python `bytearray` element update facts. -/

theorem getD_set_self (l : List Nat) (z : Nat) (B : Nat) (h : z < l.length) :
    (l.set z B).getD z 0 = B := by
  simp [List.getD_eq_getElem?_getD, List.getElem?_set_self', h]

theorem getD_set_ne (l : List Nat) (z zu : Nat) (B : Nat) (h : z ≠ zu) :
    (l.set z B).getD zu 0 = l.getD zu 0 := by
  simp [List.getD_eq_getElem?_getD, List.getElem?_set_ne h]

/-- A byte write that changes only bit `t` of byte `z` leaves every other
addressed bit of the plane unchanged. -/
theorem testBit_set_frame (l : List Nat) (z t zu tu : Nat) (B : Nat)
    (hB : ∀ j, j ≠ t → B.testBit j = (l.getD z 0).testBit j)
    (hne : ¬(z = zu ∧ t = tu)) :
    ((l.set z B).getD zu 0).testBit tu = (l.getD zu 0).testBit tu := by
  by_cases hz : z = zu
  · subst hz
    have ht : tu ≠ t := fun h => hne ⟨rfl, h.symm⟩
    by_cases hlen : z < l.length
    · rw [getD_set_self _ _ _ hlen, hB tu ht]
    · rw [List.set_eq_of_length_le (Nat.le_of_not_lt hlen)]
  · rw [getD_set_ne _ _ _ _ hz]

/-! Bounds and injectivity of the coordinate mapping. -/

theorem orientCoordinates_lt (s : Screen) (x y : Nat)
    (h : (orientCoordinates s x y).1 = false) :
    (orientCoordinates s x y).2.1 < s.screenSizeV ∧
    (orientCoordinates s x y).2.2 < s.screenSizeH := by
  unfold orientCoordinates at h ⊢
  split_ifs at h ⊢ <;> simp_all <;> omega

theorem orientCoordinates_inj (s : Screen) {a b u v : Nat}
    (ha : (orientCoordinates s a b).1 = false)
    (hu : (orientCoordinates s u v).1 = false)
    (heq : (orientCoordinates s a b).2 = (orientCoordinates s u v).2) :
    a = u ∧ b = v := by
  unfold orientCoordinates at ha hu heq
  split_ifs at ha hu heq <;> simp_all [Prod.ext_iff] <;> omega

theorem getZT_inj (s : Screen) (h8 : s.screenSizeH % 8 = 0)
    {x1 y1 x2 y2 : Nat} (hy1 : y1 < s.screenSizeH) (hy2 : y2 < s.screenSizeH)
    (heq : getZT s x1 y1 = getZT s x2 y2) : x1 = x2 ∧ y1 = y2 := by
  unfold getZT bufferSizeH at heq
  rw [Prod.ext_iff] at heq
  obtain ⟨hz, ht⟩ := heq
  simp only [Nat.shiftRight_eq_div_pow] at hz
  norm_num at hz
  have hH : 8 * (s.screenSizeH / 8) = s.screenSizeH :=
    Nat.mul_div_cancel' (Nat.dvd_of_mod_eq_zero h8)
  have hq1 : y1 / 8 < s.screenSizeH / 8 :=
    (Nat.div_lt_iff_lt_mul (by norm_num)).mpr (by omega)
  have hq2 : y2 / 8 < s.screenSizeH / 8 :=
    (Nat.div_lt_iff_lt_mul (by norm_num)).mpr (by omega)
  rw [Nat.add_comm (x1 * (s.screenSizeH / 8)), Nat.add_comm (x2 * (s.screenSizeH / 8))] at hz
  have hk : 0 < s.screenSizeH / 8 := Nat.lt_of_le_of_lt (Nat.zero_le _) hq1
  have e1 : x1 = x2 := by
    have d1 := congrArg (· / (s.screenSizeH / 8)) hz
    simp only [Nat.add_mul_div_right _ _ hk, Nat.div_eq_of_lt hq1,
      Nat.div_eq_of_lt hq2] at d1
    omega
  subst e1
  have e2 : y1 / 8 = y2 / 8 := Nat.add_right_cancel hz
  exact ⟨rfl, by omega⟩

theorem pixelAt_eq_of_sameConfig {s X : Screen} (h : sameConfig s X) (u v : Nat) :
    pixelAt X u v =
      (X.newImage.getD
        (getZT s (orientCoordinates s u v).2.1 (orientCoordinates s u v).2.2).1 0).testBit
        (getZT s (orientCoordinates s u v).2.1 (orientCoordinates s u v).2.2).2 := by
  simp only [pixelAt, orientCoordinates_congr h, getZT_congr h]

/-- The framebuffer produced by an in-bounds `point`, written out flat. -/
theorem point_newImage (s : Screen) (a b c : Nat)
    (hab : (orientCoordinates s a b).1 = false) :
    (point s a b c).newImage =
      if Bool.xor ((pointColour s a b c) == Colour.WHITE) s.invert then
        s.newImage.set
          (getZT s (orientCoordinates s a b).2.1 (orientCoordinates s a b).2.2).1
          (bitClear
            (s.newImage.getD
              (getZT s (orientCoordinates s a b).2.1 (orientCoordinates s a b).2.2).1 0)
            (getZT s (orientCoordinates s a b).2.1 (orientCoordinates s a b).2.2).2)
      else if Bool.xor ((pointColour s a b c) == Colour.BLACK) s.invert then
        s.newImage.set
          (getZT s (orientCoordinates s a b).2.1 (orientCoordinates s a b).2.2).1
          (bitSet
            (s.newImage.getD
              (getZT s (orientCoordinates s a b).2.1 (orientCoordinates s a b).2.2).1 0)
            (getZT s (orientCoordinates s a b).2.1 (orientCoordinates s a b).2.2).2)
      else s.newImage := by
  simp only [point, pointColour, hab, Bool.false_eq_true, if_false]
  split_ifs <;> rfl

/-- The frame rule for `point`: plotting `(a, b)` changes the pixel read back
at an in-bounds `(u, v)` exactly when `(a, b) = (u, v)`, and then to the bit
`pointBit` describes. -/
theorem pixelAt_point (s : Screen) (h8 : s.screenSizeH % 8 = 0)
    (a b u v c : Nat) (hin : (orientCoordinates s u v).1 = false) :
    pixelAt (point s a b c) u v =
      if a = u ∧ b = v then pointBit s u v c (pixelAt s u v)
      else pixelAt s u v := by
  by_cases hab : (orientCoordinates s a b).1 = true
  · have hp : point s a b c = s := by
      simp only [point, hab, if_true]
    rw [hp]
    have hne : ¬(a = u ∧ b = v) := by
      rintro ⟨rfl, rfl⟩
      rw [hab] at hin
      cases hin
    rw [if_neg hne]
  · have hab' : (orientCoordinates s a b).1 = false := by
      simpa using hab
    rw [pixelAt_eq_of_sameConfig (point_sameConfig s a b c) u v,
        point_newImage s a b c hab']
    by_cases hc : a = u ∧ b = v
    · obtain ⟨rfl, rfl⟩ := hc
      have htriv : a = a ∧ b = b := ⟨rfl, rfl⟩
      rw [if_pos htriv]
      simp only [pointBit, pixelAt]
      by_cases hlen :
          (getZT s (orientCoordinates s a b).2.1 (orientCoordinates s a b).2.2).1
            < s.newImage.length
      · rw [if_pos hlen]
        split_ifs with hW hB
        · rw [getD_set_self _ _ _ hlen, testBit_bitClear]
          simp
        · rw [getD_set_self _ _ _ hlen, testBit_bitSet]
          simp
        · rfl
      · rw [if_neg hlen]
        rw [List.set_eq_of_length_le (Nat.le_of_not_lt hlen),
            List.set_eq_of_length_le (Nat.le_of_not_lt hlen)]
        split_ifs <;> rfl
    · rw [if_neg hc]
      have hlt_a := orientCoordinates_lt s a b hab'
      have hlt_u := orientCoordinates_lt s u v hin
      have hztne :
          ¬((getZT s (orientCoordinates s a b).2.1 (orientCoordinates s a b).2.2).1 =
              (getZT s (orientCoordinates s u v).2.1 (orientCoordinates s u v).2.2).1 ∧
            (getZT s (orientCoordinates s a b).2.1 (orientCoordinates s a b).2.2).2 =
              (getZT s (orientCoordinates s u v).2.1 (orientCoordinates s u v).2.2).2) := by
        rintro ⟨h1, h2⟩
        have hzt := getZT_inj s h8 hlt_a.2 hlt_u.2 (Prod.ext h1 h2)
        exact hc (orientCoordinates_inj s hab' hin (Prod.ext hzt.1 hzt.2))
      simp only [pixelAt]
      split_ifs with hW hB
      · exact testBit_set_frame _ _ _ _ _ _
          (fun j hj => by rw [testBit_bitClear]; simp [Ne.symm hj]) hztne
      · exact testBit_set_frame _ _ _ _ _ _
          (fun j hj => by rw [testBit_bitSet]; simp [Ne.symm hj]) hztne
      · rfl

/-- Folding `point` down a column `x` over the y-values `ys`: the effect on an
in-bounds pixel `(u, v)`. -/
theorem pixelAt_foldl_col (s : Screen) (h8 : s.screenSizeH % 8 = 0)
    (x c u v : Nat) (hin : (orientCoordinates s u v).1 = false) (ys : List Nat) :
    pixelAt (ys.foldl (fun t y => point t x y c) s) u v =
      if u = x ∧ v ∈ ys then pointBit s u v c (pixelAt s u v)
      else pixelAt s u v := by
  induction ys generalizing s with
  | nil => simp
  | cons y ys ih =>
    have hcfg := point_sameConfig s x y c
    have h8' : (point s x y c).screenSizeH % 8 = 0 := by rw [hcfg.2.2.1]; exact h8
    have hin' : (orientCoordinates (point s x y c) u v).1 = false := by
      rw [orientCoordinates_congr hcfg]; exact hin
    rw [List.foldl_cons, ih (point s x y c) h8' hin', pointBit_congr hcfg,
        pixelAt_point s h8 x y u v c hin]
    by_cases hux : u = x
    · subst hux
      by_cases hvy : v = y
      · subst hvy
        by_cases hmem : v ∈ ys
        · simp [hmem, pointBit_idem]
        · simp [hmem]
      · have hvy' : ¬(y = v) := fun h => hvy h.symm
        by_cases hmem : v ∈ ys
        · simp [hmem, hvy, hvy']
        · simp [hmem, hvy, hvy']
    · have hux' : ¬(x = u) := fun h => hux h.symm
      simp [hux, hux']

/-- Folding columns of `point` over the x-values `xs` and y-values `ys`
(the solid-rectangle double loop): the effect on an in-bounds pixel. -/
theorem pixelAt_foldl_rect (s : Screen) (h8 : s.screenSizeH % 8 = 0)
    (c u v : Nat) (hin : (orientCoordinates s u v).1 = false) (xs ys : List Nat) :
    pixelAt (xs.foldl
        (fun t x => ys.foldl (fun t' y => point t' x y c) t) s) u v =
      if u ∈ xs ∧ v ∈ ys then pointBit s u v c (pixelAt s u v)
      else pixelAt s u v := by
  induction xs generalizing s with
  | nil => simp
  | cons x xs ih =>
    have hcfg : sameConfig s (ys.foldl (fun t' y => point t' x y c) s) :=
      foldl_sameConfig _ (fun t a => point_sameConfig t x a c) ys s
    have h8' : (ys.foldl (fun t' y => point t' x y c) s).screenSizeH % 8 = 0 := by
      rw [hcfg.2.2.1]; exact h8
    have hin' :
        (orientCoordinates (ys.foldl (fun t' y => point t' x y c) s) u v).1 = false := by
      rw [orientCoordinates_congr hcfg]; exact hin
    rw [List.foldl_cons, ih _ h8' hin', pointBit_congr hcfg,
        pixelAt_foldl_col s h8 x c u v hin ys]
    by_cases hux : u = x
    · subst hux
      by_cases hmem : v ∈ ys
      · by_cases hxs : u ∈ xs
        · simp [hmem, hxs, pointBit_idem]
        · simp [hmem, hxs]
      · simp [hmem]
    · have hux' : ¬(u = x) := hux
      by_cases hxs : u ∈ xs
      · simp [hux', hxs]
      · simp [hux', hxs]

/-- `line` between equal x-coordinates (the degenerate and pure-vertical
branches): the effect on an in-bounds pixel. -/
theorem pixelAt_line_vert (s : Screen) (h8 : s.screenSizeH % 8 = 0)
    (x a b c u v : Nat) (hin : (orientCoordinates s u v).1 = false) :
    pixelAt (line s x a x b c) u v =
      if u = x ∧ min a b ≤ v ∧ v ≤ max a b then pointBit s u v c (pixelAt s u v)
      else pixelAt s u v := by
  by_cases hab : a = b
  · subst hab
    have hline : line s x a x a c = point s x a c := by
      simp [line]
    rw [hline, pixelAt_point s h8 x a u v c hin]
    exact if_congr (by omega) rfl rfl
  · have h1 : ¬(x = x ∧ a = b) := fun h => hab h.2
    have hline : line s x a x b c =
        (List.range' (if a > b then b else a)
          ((if a > b then a else b) + 1 - (if a > b then b else a))).foldl
          (fun t y => point t x y c) s := by
      simp [line, h1, hab]
    rw [hline, pixelAt_foldl_col s h8 x c u v hin]
    refine if_congr ?_ rfl rfl
    simp only [List.mem_range'_1]
    constructor
    · rintro ⟨rfl, hr⟩
      revert hr
      split_ifs <;> omega
    · rintro ⟨rfl, hr⟩
      refine ⟨rfl, ?_⟩
      revert hr
      split_ifs <;> omega

/-- Folding `point` along a row `y` over the x-values `xs`: the effect on an
in-bounds pixel `(u, v)`. -/
theorem pixelAt_foldl_row (s : Screen) (h8 : s.screenSizeH % 8 = 0)
    (y c u v : Nat) (hin : (orientCoordinates s u v).1 = false) (xs : List Nat) :
    pixelAt (xs.foldl (fun t x => point t x y c) s) u v =
      if v = y ∧ u ∈ xs then pointBit s u v c (pixelAt s u v)
      else pixelAt s u v := by
  induction xs generalizing s with
  | nil => simp
  | cons x xs ih =>
    have hcfg := point_sameConfig s x y c
    have h8' : (point s x y c).screenSizeH % 8 = 0 := by rw [hcfg.2.2.1]; exact h8
    have hin' : (orientCoordinates (point s x y c) u v).1 = false := by
      rw [orientCoordinates_congr hcfg]; exact hin
    rw [List.foldl_cons, ih (point s x y c) h8' hin', pointBit_congr hcfg,
        pixelAt_point s h8 x y u v c hin]
    by_cases hvy : v = y
    · subst hvy
      by_cases hux : u = x
      · subst hux
        by_cases hmem : u ∈ xs
        · simp [hmem, pointBit_idem]
        · simp [hmem]
      · have hux' : ¬(x = u) := fun h => hux h.symm
        by_cases hmem : u ∈ xs
        · simp [hmem, hux, hux']
        · simp [hmem, hux, hux']
    · have hvy' : ¬(y = v) := fun h => hvy h.symm
      simp [hvy, hvy']

/-- `line` between equal y-coordinates (the degenerate and pure-horizontal
branches): the effect on an in-bounds pixel. -/
theorem pixelAt_line_horiz (s : Screen) (h8 : s.screenSizeH % 8 = 0)
    (a b y c u v : Nat) (hin : (orientCoordinates s u v).1 = false) :
    pixelAt (line s a y b y c) u v =
      if v = y ∧ min a b ≤ u ∧ u ≤ max a b then pointBit s u v c (pixelAt s u v)
      else pixelAt s u v := by
  by_cases hab : a = b
  · subst hab
    have hline : line s a y a y c = point s a y c := by
      simp [line]
    rw [hline, pixelAt_point s h8 a y u v c hin]
    exact if_congr (by omega) rfl rfl
  · have h1 : ¬(a = b ∧ y = y) := fun h => hab h.1
    have hline : line s a y b y c =
        (List.range' (if a > b then b else a)
          ((if a > b then a else b) + 1 - (if a > b then b else a))).foldl
          (fun t x => point t x y c) s := by
      simp [line, h1, hab]
    rw [hline, pixelAt_foldl_row s h8 y c u v hin]
    refine if_congr ?_ rfl rfl
    simp only [List.mem_range'_1]
    constructor
    · rintro ⟨rfl, hr⟩
      revert hr
      split_ifs <;> omega
    · rintro ⟨rfl, hr⟩
      refine ⟨rfl, ?_⟩
      revert hr
      split_ifs <;> omega

/-- At its own pixel, an in-bounds `point` produces exactly `pointBit`. -/
theorem pixelAt_point_self (s : Screen) (h8 : s.screenSizeH % 8 = 0) (u v c : Nat)
    (hin : (orientCoordinates s u v).1 = false) :
    pixelAt (point s u v c) u v = pointBit s u v c (pixelAt s u v) := by
  rw [pixelAt_point s h8 u v u v c hin]
  have htriv : u = u ∧ v = v := ⟨rfl, rfl⟩
  rw [if_pos htriv]

theorem lineLoop_sameConfig (colour dx dy : Nat) (ystep : Int) (flag : Bool) :
    ∀ (n wx1 wy1 : Nat) (err : ℚ) (s : Screen),
      sameConfig s (lineLoop colour dx dy ystep flag n wx1 wy1 err s) := by
  intro n
  induction n with
  | zero => intro wx1 wy1 err s; exact sameConfig_refl s
  | succ n ih =>
    intro wx1 wy1 err s
    simp only [lineLoop]
    refine sameConfig_trans ?_ (ih ..)
    split_ifs <;> exact point_sameConfig ..

theorem line_sameConfig (s : Screen) (x1 y1 x2 y2 c : Nat) :
    sameConfig s (line s x1 y1 x2 y2 c) := by
  simp only [line]
  split_ifs <;>
    first
      | exact point_sameConfig ..
      | exact foldl_sameConfig _ (fun t a => point_sameConfig ..) _ s
      | exact lineLoop_sameConfig ..

/-! ## The claims -/

/-- Claim C2 (code bug): `setOrientation(6)` and `setOrientation(7)` do not
store an orientation in `{0, 1}`.  The final unconditional
`self._orientation = orientation % 4` (source line 279) overwrites the 6/7
handling, so the stored orientation is `6 % 4 = 2` (resp. `7 % 4 = 3`) for
every screen, never the width/height comparison result the spec describes. -/
theorem setOrientation_pseudo_input_stores_2_and_3 (s : Screen) :
    getOrientation (setOrientation s 6) = 2 ∧ getOrientation (setOrientation s 7) = 3 :=
  ⟨rfl, rfl⟩

/-- Claim C3 (confirmed): `flush` emits, in order, the configuration writes,
then the "previous" plane (`_oldImage` exactly as it was before the flush) to
register `0x10`, then the "current" plane (`_newImage`) to register `0x13`,
then the refresh and power-off commands; and only the transfer step changes
state, overwriting "previous" with "current" byte-for-byte.  In particular the
payload sent to `0x10` is the pre-flush previous plane, so that plane is
never modified before the transfer completes. -/
theorem flush_trace (s : Screen) :
    flush s = ({ s with oldImage := s.newImage },
      [SpiEvent.indexData 0x00 [0x00],
       SpiEvent.indexData 0xe5 [0x19 ||| 0x40],
       SpiEvent.indexData 0xe0 [0x02],
       SpiEvent.indexData 0x00 [0xcf ||| 0x10, 0x8d ||| 0x02],
       SpiEvent.indexData 0x10 s.oldImage,
       SpiEvent.indexData 0x13 s.newImage,
       SpiEvent.command8 0x04,
       SpiEvent.command8 0x12,
       SpiEvent.command8 0x02]) := rfl

/-- Claim C5 (confirmed): when `__orientCoordinates` signals out-of-bounds,
`point` returns normally (it is a total function of the screen state) and the
whole `Screen` state — both planes and every parameter field — is unchanged. -/
theorem point_out_of_bounds_noop (s : Screen) (x y c : Nat)
    (h : (orientCoordinates s x y).1 = true) :
    point s x y c = s := by
  simp only [point, h, if_true]

/-- Witness for C5 at a concrete out-of-bounds input on a 2×8 screen. -/
theorem point_out_of_bounds_noop_witness :
    (orientCoordinates (Screen.init 2 8) 100 0).1 = true ∧
    point (Screen.init 2 8) 100 0 Colour.GREY = Screen.init 2 8 :=
  ⟨by decide, point_out_of_bounds_noop (Screen.init 2 8) 100 0 Colour.GREY (by decide)⟩

/-- Claim C7 (confirmed): `line` with equal endpoints performs exactly the
state transition of `point` — the first branch of the source delegates. -/
theorem line_degenerate_eq_point (s : Screen) (x y c : Nat) :
    line s x y x y c = point s x y c := by
  simp [line]

/-- Claim C10 (confirmed): `setFontSpaceY` is a no-op.  The source line 562 is
`self_fontSpaceY = number` — the dot is missing, so Python binds and discards
a local variable; the stored vertical spacing keeps its previous value and the
whole state is untouched, so every subsequent operation behaves as if the call
never happened. -/
theorem setFontSpaceY_noop (s : Screen) (n : Int) :
    setFontSpaceY s n = s ∧ (setFontSpaceY s n).fontSpaceY = s.fontSpaceY :=
  ⟨rfl, rfl⟩

/-- Claim C1 (code bug): after an in-bounds `point(x, y, BLACK)`, `readPixel`
at the same coordinates does not return a colour at all — the source executes
`value(0)` (line 349), a call to the local variable `value` that is only
assigned four lines later, so Python raises `UnboundLocalError` on every
in-bounds read (modelled as `none`), instead of the BLACK/WHITE result the
claim describes.  (Even without that line the read logic would be wrong:
`__bitRead` returns the mask `1 << t1`, not `0/1`, so the `value == 0x10` test
after `value <<= 4` would misread every bit position `t1 ≠ 0`.) -/
theorem readPixel_after_point_raises (s : Screen) (x y : Nat)
    (hin : (orientCoordinates s x y).1 = false) :
    readPixel (point s x y Colour.BLACK) x y = none := by
  have hcfg := point_sameConfig s x y Colour.BLACK
  simp [readPixel, orientCoordinates_congr hcfg, hin]

/-- Witness for C1 at pixel `(0, 0)` of a fresh 2×8 screen with `invert`
false: the claim expects BLACK back, the code raises. -/
theorem readPixel_after_point_raises_witness :
    (orientCoordinates (Screen.init 2 8) 0 0).1 = false ∧
    readPixel (point (Screen.init 2 8) 0 0 Colour.BLACK) 0 0 = none :=
  ⟨by decide, readPixel_after_point_raises (Screen.init 2 8) 0 0 (by decide)⟩

/-- Claim C4 (confirmed): for every stored orientation in `{0, 1, 2, 3}`,
`__orientCoordinates` coincides with the spec's four-case `mapCoordinates`
(in-bounds tests and mapped coordinates as stated, original coordinates with
the error flag when out of bounds). -/
theorem orientCoordinates_matches_spec (s : Screen) (x y : Nat)
    (h : s.orientation = 0 ∨ s.orientation = 1 ∨ s.orientation = 2 ∨
      s.orientation = 3) :
    orientCoordinates s x y = mapCoordinatesSpec s x y := by
  rcases h with h | h | h | h <;> simp [orientCoordinates, mapCoordinatesSpec, h]

/-- Witness for C4 on a 2×8 screen at orientation 0. -/
theorem orientCoordinates_matches_spec_witness :
    ((Screen.init 2 8).orientation = 0 ∨ (Screen.init 2 8).orientation = 1 ∨
      (Screen.init 2 8).orientation = 2 ∨ (Screen.init 2 8).orientation = 3) ∧
    orientCoordinates (Screen.init 2 8) 3 1 = mapCoordinatesSpec (Screen.init 2 8) 3 1 :=
  ⟨Or.inl rfl, orientCoordinates_matches_spec (Screen.init 2 8) 3 1 (Or.inl rfl)⟩

/-- The selector stored by `selectFont` (the descriptor-configuration branches
never touch `_fontSize`). -/
theorem selectFont_fontSize (s : Screen) (font : Int) :
    (selectFont s font).fontSize =
      if font < MAX_FONT_SIZE then font else MAX_FONT_SIZE - 1 := by
  simp only [selectFont]
  split_ifs <;> rfl

/-- Counterexample to claim C9 as stated: `selectFont(-1)` passes the
`font < MAX_FONT_SIZE` test, so `-1` is stored as-is — outside the valid
range `[0, MAX_FONT_SIZE)`. -/
theorem selectFont_negative_not_clamped :
    (selectFont (Screen.init 2 8) (-1)).fontSize = -1 ∧
    ¬(0 ≤ (selectFont (Screen.init 2 8) (-1)).fontSize ∧
      (selectFont (Screen.init 2 8) (-1)).fontSize < MAX_FONT_SIZE) := by
  constructor
  · rfl
  · intro hcontra
    have h1 := hcontra.1
    rw [selectFont_fontSize] at h1
    revert h1
    decide

/-- Claim C9 (amended): for every non-negative integer argument the stored
selector lies in `[0, MAX_FONT_SIZE)` — in-range values are stored as-is and
overlarge values are clamped to `MAX_FONT_SIZE - 1`; a negative argument,
however, is stored unchanged, outside that range. -/
theorem selectFont_clamps_nonneg (s : Screen) (font : Int) (h : 0 ≤ font) :
    0 ≤ (selectFont s font).fontSize ∧
    (selectFont s font).fontSize < MAX_FONT_SIZE ∧
    (selectFont s font).fontSize =
      (if font < MAX_FONT_SIZE then font else MAX_FONT_SIZE - 1) := by
  rw [selectFont_fontSize]
  unfold MAX_FONT_SIZE
  split_ifs <;> omega

/-- Witness for the amended C9 at the overlarge selector `10`. -/
theorem selectFont_clamps_nonneg_witness :
    0 ≤ (10 : Int) ∧
    (0 ≤ (selectFont (Screen.init 2 8) 10).fontSize ∧
     (selectFont (Screen.init 2 8) 10).fontSize < MAX_FONT_SIZE ∧
     (selectFont (Screen.init 2 8) 10).fontSize =
       (if (10 : Int) < MAX_FONT_SIZE then 10 else MAX_FONT_SIZE - 1)) :=
  ⟨by decide, selectFont_clamps_nonneg (Screen.init 2 8) 10 (by decide)⟩

/-- Collapsing a chain of guarded idempotent updates of one pixel: four
sequential conditional applications of the same write equal one application
guarded by the disjunction. -/
theorem ifChain_collapse (f : Bool → Bool) (p : Bool)
    (hidem : ∀ b, f (f b) = f b)
    (P1 P2 P3 P4 : Prop) [Decidable P1] [Decidable P2] [Decidable P3] [Decidable P4] :
    (if P4 then f (if P3 then f (if P2 then f (if P1 then f p else p)
          else if P1 then f p else p)
        else if P2 then f (if P1 then f p else p) else if P1 then f p else p)
      else if P3 then f (if P2 then f (if P1 then f p else p)
          else if P1 then f p else p)
        else if P2 then f (if P1 then f p else p) else if P1 then f p else p) =
    (if P4 ∨ P3 ∨ P2 ∨ P1 then f p else p) := by
  split_ifs <;> first | rfl | tauto | simp only [hidem]

set_option maxHeartbeats 1000000 in
/-- Claim C6 (confirmed): on a byte-aligned panel (`H % 8 = 0`, as on the real
416×240 device), for every in-bounds logical pixel `(u, v)`: with the solid
pen, `rectangle` leaves `(u, v)` exactly as `point u v colour` would whenever
`(u, v)` lies in the normalized inclusive range, and unchanged outside it;
with the outline pen, `(u, v)` is plotted exactly when it lies on one of the
four border lines, and every other pixel — the whole interior included — is
unchanged. -/
theorem rectangle_pen_pixels (s : Screen) (x1 y1 x2 y2 c u v : Nat)
    (h8 : s.screenSizeH % 8 = 0)
    (hin : (orientCoordinates s u v).1 = false) :
    (s.penSolid = true →
      pixelAt (rectangle s x1 y1 x2 y2 c) u v =
        (if min x1 x2 ≤ u ∧ u ≤ max x1 x2 ∧ min y1 y2 ≤ v ∧ v ≤ max y1 y2
         then pixelAt (point s u v c) u v
         else pixelAt s u v)) ∧
    (s.penSolid = false →
      pixelAt (rectangle s x1 y1 x2 y2 c) u v =
        (if (min x1 x2 ≤ u ∧ u ≤ max x1 x2 ∧ min y1 y2 ≤ v ∧ v ≤ max y1 y2) ∧
            (u = x1 ∨ u = x2 ∨ v = y1 ∨ v = y2)
         then pixelAt (point s u v c) u v
         else pixelAt s u v)) := by
  constructor
  · intro hpen
    have hrect : rectangle s x1 y1 x2 y2 c =
        (List.range' (if x1 > x2 then x2 else x1)
            ((if x1 > x2 then x1 else x2) + 1 - (if x1 > x2 then x2 else x1))).foldl
          (fun t x => (List.range' (if y1 > y2 then y2 else y1)
            ((if y1 > y2 then y1 else y2) + 1 - (if y1 > y2 then y2 else y1))).foldl
              (fun t' y => point t' x y c) t) s := by
      simp [rectangle, hpen]
    rw [hrect, pixelAt_foldl_rect s h8 c u v hin,
        pixelAt_point_self s h8 u v c hin]
    refine if_congr ?_ rfl rfl
    simp only [List.mem_range'_1]
    constructor
    · rintro ⟨hu, hv⟩
      revert hu hv
      split_ifs <;> omega
    · rintro ⟨hu1, hu2, hv1, hv2⟩
      revert hu1 hu2 hv1 hv2
      split_ifs <;> omega
  · intro hpen
    have hrect : rectangle s x1 y1 x2 y2 c =
        line (line (line (line s x1 y1 x1 y2 c) x1 y1 x2 y1 c) x1 y2 x2 y2 c)
          x2 y1 x2 y2 c := by
      simp [rectangle, hpen]
    have cfg1 : sameConfig s (line s x1 y1 x1 y2 c) := line_sameConfig ..
    have cfg2 : sameConfig (line s x1 y1 x1 y2 c)
        (line (line s x1 y1 x1 y2 c) x1 y1 x2 y1 c) := line_sameConfig ..
    have cfg3 : sameConfig (line (line s x1 y1 x1 y2 c) x1 y1 x2 y1 c)
        (line (line (line s x1 y1 x1 y2 c) x1 y1 x2 y1 c) x1 y2 x2 y2 c) :=
      line_sameConfig ..
    have sC2 := sameConfig_trans cfg1 cfg2
    have sC3 := sameConfig_trans sC2 cfg3
    have h81 : (line s x1 y1 x1 y2 c).screenSizeH % 8 = 0 := by
      rw [cfg1.2.2.1]; exact h8
    have h82 : (line (line s x1 y1 x1 y2 c) x1 y1 x2 y1 c).screenSizeH % 8 = 0 := by
      rw [sC2.2.2.1]; exact h8
    have h83 : (line (line (line s x1 y1 x1 y2 c) x1 y1 x2 y1 c)
        x1 y2 x2 y2 c).screenSizeH % 8 = 0 := by
      rw [sC3.2.2.1]; exact h8
    have hin1 : (orientCoordinates (line s x1 y1 x1 y2 c) u v).1 = false := by
      rw [orientCoordinates_congr cfg1]; exact hin
    have hin2 : (orientCoordinates
        (line (line s x1 y1 x1 y2 c) x1 y1 x2 y1 c) u v).1 = false := by
      rw [orientCoordinates_congr sC2]; exact hin
    have hin3 : (orientCoordinates
        (line (line (line s x1 y1 x1 y2 c) x1 y1 x2 y1 c) x1 y2 x2 y2 c)
          u v).1 = false := by
      rw [orientCoordinates_congr sC3]; exact hin
    rw [hrect,
        pixelAt_line_vert _ h83 x2 y1 y2 c u v hin3, pointBit_congr sC3,
        pixelAt_line_horiz _ h82 x1 x2 y2 c u v hin2, pointBit_congr sC2,
        pixelAt_line_horiz _ h81 x1 x2 y1 c u v hin1, pointBit_congr cfg1,
        pixelAt_line_vert _ h8 x1 y1 y2 c u v hin,
        pixelAt_point_self s h8 u v c hin]
    have hcond : ((min x1 x2 ≤ u ∧ u ≤ max x1 x2 ∧ min y1 y2 ≤ v ∧
          v ≤ max y1 y2) ∧ (u = x1 ∨ u = x2 ∨ v = y1 ∨ v = y2)) ↔
        ((u = x2 ∧ min y1 y2 ≤ v ∧ v ≤ max y1 y2) ∨
         (v = y2 ∧ min x1 x2 ≤ u ∧ u ≤ max x1 x2) ∨
         (v = y1 ∧ min x1 x2 ≤ u ∧ u ≤ max x1 x2) ∨
         (u = x1 ∧ min y1 y2 ≤ v ∧ v ≤ max y1 y2)) := by
      omega
    rw [if_congr hcond rfl rfl]
    exact ifChain_collapse (pointBit s u v c) (pixelAt s u v)
      (pointBit_idem s u v c) _ _ _ _

/-- Witness for C6: both pens, on a 2×8 screen, rectangle `[1,3]×[0,1]`,
probed at the border pixel `(2, 1)`. -/
theorem rectangle_pen_pixels_witness :
    ((Screen.init 2 8).screenSizeH % 8 = 0 ∧
     (orientCoordinates (Screen.init 2 8) 2 1).1 = false ∧
     pixelAt (rectangle (Screen.init 2 8) 1 0 3 1 Colour.BLACK) 2 1 =
       (if (min 1 3 ≤ 2 ∧ 2 ≤ max 1 3 ∧ min 0 1 ≤ 1 ∧ 1 ≤ max 0 1) ∧
           (2 = 1 ∨ 2 = 3 ∨ 1 = 0 ∨ 1 = 1)
        then pixelAt (point (Screen.init 2 8) 2 1 Colour.BLACK) 2 1
        else pixelAt (Screen.init 2 8) 2 1)) ∧
    (({ Screen.init 2 8 with penSolid := true } : Screen).screenSizeH % 8 = 0 ∧
     (orientCoordinates ({ Screen.init 2 8 with penSolid := true } : Screen) 2 1).1
        = false ∧
     pixelAt (rectangle ({ Screen.init 2 8 with penSolid := true } : Screen)
         1 0 3 1 Colour.BLACK) 2 1 =
       (if min 1 3 ≤ 2 ∧ 2 ≤ max 1 3 ∧ min 0 1 ≤ 1 ∧ 1 ≤ max 0 1
        then pixelAt (point ({ Screen.init 2 8 with penSolid := true } : Screen)
            2 1 Colour.BLACK) 2 1
        else pixelAt ({ Screen.init 2 8 with penSolid := true } : Screen) 2 1)) :=
  ⟨⟨by decide, by decide,
    (rectangle_pen_pixels (Screen.init 2 8) 1 0 3 1 Colour.BLACK 2 1
      (by decide) (by decide)).2 rfl⟩,
   ⟨by decide, by decide,
    (rectangle_pen_pixels ({ Screen.init 2 8 with penSolid := true } : Screen)
      1 0 3 1 Colour.BLACK 2 1 (by decide) (by decide)).1 rfl⟩⟩

/-! ## `gText` ignores `_fontSpaceX` (claim C8) -/

theorem point_setFontSpaceX (s : Screen) (n : Int) (a b c : Nat) :
    point (setFontSpaceX s n) a b c = setFontSpaceX (point s a b c) n := by
  have h1 : orientCoordinates (setFontSpaceX s n) = orientCoordinates s := rfl
  have h2 : getZT (setFontSpaceX s n) = getZT s := rfl
  have h3 : (setFontSpaceX s n).invert = s.invert := rfl
  have h4 : (setFontSpaceX s n).newImage = s.newImage := rfl
  simp only [point, h1, h2, h3, h4]
  split_ifs <;> rfl

theorem foldl_setFontSpaceX {α : Type} (f : Screen → α → Screen) (n : Int)
    (hf : ∀ t a, f (setFontSpaceX t n) a = setFontSpaceX (f t a) n) :
    ∀ (l : List α) (s : Screen),
      l.foldl f (setFontSpaceX s n) = setFontSpaceX (l.foldl f s) n := by
  intro l
  induction l with
  | nil => intro s; rfl
  | cons a l ih =>
    intro s
    rw [List.foldl_cons, List.foldl_cons, hf, ih]

theorem getCharacter_setFontSpaceX (ft : FontTables) (t : Screen) (n : Int) :
    getCharacter ft (setFontSpaceX t n) = getCharacter ft t := rfl

/-- A single conditional glyph-bit plot commutes with setting `_fontSpaceX`. -/
theorem plotStep_setFontSpaceX (n : Int) (t : Screen) (P : Prop) [Decidable P]
    (A B C C2 : Nat) :
    (if P then point (setFontSpaceX t n) A B C
     else if (setFontSpaceX t n).fontSolid then point (setFontSpaceX t n) A B C2
     else setFontSpaceX t n) =
    setFontSpaceX
      (if P then point t A B C else if t.fontSolid then point t A B C2 else t) n := by
  have hsol : (setFontSpaceX t n).fontSolid = t.fontSolid := rfl
  rw [hsol]
  split_ifs <;> simp [point_setFontSpaceX]

/-- The second-byte plot (whose background fill is additionally guarded)
commutes with setting `_fontSpaceX`. -/
theorem plotStep2_setFontSpaceX (n : Int) (t : Screen) (P Q : Prop)
    [Decidable P] [Decidable Q] (A B C C2 : Nat) :
    (if P then point (setFontSpaceX t n) A B C
     else if (setFontSpaceX t n).fontSolid ∧ Q then point (setFontSpaceX t n) A B C2
     else setFontSpaceX t n) =
    setFontSpaceX
      (if P then point t A B C
       else if t.fontSolid ∧ Q then point t A B C2 else t) n := by
  have hsol : (setFontSpaceX t n).fontSolid = t.fontSolid := rfl
  rw [hsol]
  split_ifs <;> simp [point_setFontSpaceX]

theorem gText_setFontSpaceX (ft : FontTables) (s : Screen) (n : Int)
    (x0 y0 : Nat) (text : List Char) (tc bc : Nat) :
    gText ft (setFontSpaceX s n) x0 y0 text tc bc =
      setFontSpaceX (gText ft s x0 y0 text tc bc) n := by
  have hfs : (setFontSpaceX s n).fontSize = s.fontSize := rfl
  simp only [gText, hfs]
  split_ifs with hf0 hf1 hf2
  · refine foldl_setFontSpaceX _ n ?_ _ s
    intro t k
    dsimp only
    refine foldl_setFontSpaceX _ n ?_ _ t
    intro t i
    dsimp only
    rw [getCharacter_setFontSpaceX]
    refine foldl_setFontSpaceX _ n ?_ _ t
    intro t j
    dsimp only
    exact plotStep_setFontSpaceX n t _ _ _ _ _
  · refine foldl_setFontSpaceX _ n ?_ _ s
    intro t k
    dsimp only
    refine foldl_setFontSpaceX _ n ?_ _ t
    intro t i
    dsimp only
    rw [getCharacter_setFontSpaceX]
    refine foldl_setFontSpaceX _ n ?_ _ t
    intro t j
    dsimp only
    rw [plotStep_setFontSpaceX]
    exact plotStep2_setFontSpaceX n _ _ _ _ _ _ _
  · refine foldl_setFontSpaceX _ n ?_ _ s
    intro t k
    dsimp only
    refine foldl_setFontSpaceX _ n ?_ _ t
    intro t i
    dsimp only
    rw [getCharacter_setFontSpaceX]
    refine foldl_setFontSpaceX _ n ?_ _ t
    intro t j
    dsimp only
    rw [plotStep_setFontSpaceX]
    exact plotStep_setFontSpaceX n _ _ _ _ _ _
  · rfl

/-- Claim C8 (confirmed): `gText`'s framebuffer mutation is identical for any
two stored values of `_fontSpaceX` — the inter-character stride is hardcoded
to the font's column count — while `characterSizeX` reports
`maxWidth + fontSpaceX`. -/
theorem gText_ignores_fontSpaceX (ft : FontTables) (s : Screen) (n : Int)
    (x0 y0 : Nat) (text : List Char) (textColour backColour ch : Nat) :
    (gText ft (setFontSpaceX s n) x0 y0 text textColour backColour).newImage =
      (gText ft s x0 y0 text textColour backColour).newImage ∧
    characterSizeX (setFontSpaceX s n) ch = (s.font.maxWidth : Int) + n ∧
    characterSizeX s ch = (s.font.maxWidth : Int) + s.fontSpaceX := by
  refine ⟨?_, rfl, rfl⟩
  rw [gText_setFontSpaceX]
  rfl
